import Mathlib

/-!
# Verification of the HackNight statement-store resolvers

A shallow embedding of `src/graphql/resolvers.ts` (together with the REST
facade of `src/index.ts`).  The backing Neo4j graph is modelled as an
explicit store: a list of `Identifier` node values and a list of statement
edges.  Cypher `MERGE` on an identifier becomes insert-if-absent, `CREATE`
of a statement edge appends it, and the read resolvers become pure
functions over the store.  Identifier and timestamp generation
(`crypto.randomUUID()`, `new Date().toISOString()`) are external inputs
and are passed in explicitly.
-/

/-! ## JavaScript string primitives

`split`, `trim` and `toLowerCase` as used by the source, implemented by
structural recursion on the character list so that concrete instances
evaluate by `decide`. -/

def jsSplitAux (sep : Char) : List Char → List Char → List (List Char)
  | [], acc => [acc.reverse]
  | c :: cs, acc =>
      if c = sep then acc.reverse :: jsSplitAux sep cs []
      else jsSplitAux sep cs (c :: acc)

/-- JavaScript `s.split(sep)` for a one-character separator
(`"".split(sep)` is `[""]`; empty fields are kept). -/
def jsSplit (sep : Char) (s : String) : List String :=
  (jsSplitAux sep s.data []).map String.mk

/-- JavaScript `s.trim()`: strip leading and trailing whitespace. -/
def jsTrim (s : String) : String :=
  String.mk (((s.data.dropWhile Char.isWhitespace).reverse.dropWhile Char.isWhitespace).reverse)

/-- JavaScript `s.toLowerCase()` / Cypher `toLower` (ASCII case fold). -/
def jsToLower (s : String) : String :=
  String.mk (s.data.map Char.toLower)

/-- A statement edge as persisted in the graph
(the properties written by the `CREATE (subj)-[s:STATEMENT …]->(obj)`
queries; `subject` is the `value` of the source `Identifier` node). -/
structure Stmt where
  id : String
  subject : String
  predicate : String
  object_value : String
  source_id : Option String
  timestamp : String
  created_at : String
deriving DecidableEq

/-- The backing graph: `Identifier` node values plus statement edges. -/
structure GraphStore where
  identifiers : List String
  statements : List Stmt
deriving DecidableEq

def emptyStore : GraphStore := { identifiers := [], statements := [] }

/-- Cypher `MERGE (x:Identifier … value: v …)`: get-or-create by `value`. -/
def mergeIdentifier (g : GraphStore) (v : String) : GraphStore :=
  if v ∈ g.identifiers then g
  else { g with identifiers := g.identifiers ++ [v] }

/-- Cypher `CREATE … -[s:STATEMENT …]-> …`: appends a new edge. -/
def addStatement (g : GraphStore) (s : Stmt) : GraphStore :=
  { g with statements := g.statements ++ [s] }

/-- JavaScript `x || null` applied to an optional string:
`undefined`, `null` and `""` are all falsy and collapse to `null`. -/
def orNull (v : Option String) : Option String :=
  match v with
  | none => none
  | some s => if s = "" then none else some s

/-- The external record shape produced by `formatStatement`. -/
structure FormattedStatement where
  id : String
  subject_identifier : String
  predicate : String
  object_value : String
  source_id : Option String
  statement_timestamp : String
  created_at : String
deriving DecidableEq

/-- `formatStatement` from `resolvers.ts`: reshapes a query record into the
external field set; only `source_id` passes through `|| null`. -/
def formatStatement (s : Stmt) : FormattedStatement :=
  { id := s.id
    subject_identifier := s.subject
    predicate := s.predicate
    object_value := s.object_value
    source_id := orNull s.source_id
    statement_timestamp := s.timestamp
    created_at := s.created_at }

/-! ## JSON values and `JSON.stringify`

`createStatement` stores `JSON.stringify(input.object_value)`; the GraphQL
`object_value` input is an arbitrary JSON scalar/structure. -/

inductive Json where
  | null : Json
  | bool (b : Bool) : Json
  | num (n : Int) : Json
  | str (s : String) : Json
  | arr (elems : List Json) : Json
  | obj (fields : List (String × Json)) : Json

def hexDigit (n : Nat) : String :=
  if n < 10 then String.singleton (Char.ofNat (48 + n))
  else String.singleton (Char.ofNat (87 + n))

def jsonEscapeChar (c : Char) : String :=
  if c = '\"' then "\\\""
  else if c = '\\' then "\\\\"
  else if c = '\n' then "\\n"
  else if c = '\r' then "\\r"
  else if c = '\t' then "\\t"
  else if c.toNat = 8 then "\\b"
  else if c.toNat = 12 then "\\f"
  else if c.toNat < 32 then "\\u00" ++ hexDigit (c.toNat / 16) ++ hexDigit (c.toNat % 16)
  else String.singleton c

def jsonEscape (s : String) : String :=
  String.join (s.data.map jsonEscapeChar)

mutual

def jsonStringify : Json → String
  | Json.null => "null"
  | Json.bool true => "true"
  | Json.bool false => "false"
  | Json.num n => toString n
  | Json.str s => "\"" ++ jsonEscape s ++ "\""
  | Json.arr xs => "[" ++ jsonStringifyList xs ++ "]"
  | Json.obj fs => "\x7b" ++ jsonStringifyFields fs ++ "\x7d"

def jsonStringifyList : List Json → String
  | [] => ""
  | [x] => jsonStringify x
  | x :: y :: xs => jsonStringify x ++ "," ++ jsonStringifyList (y :: xs)

def jsonStringifyFields : List (String × Json) → String
  | [] => ""
  | [(k, v)] => "\"" ++ jsonEscape k ++ "\":" ++ jsonStringify v
  | (k, v) :: f :: fs =>
      "\"" ++ jsonEscape k ++ "\":" ++ jsonStringify v ++ "," ++ jsonStringifyFields (f :: fs)

end

/-! ## createStatement -/

/-- The GraphQL `CreateStatementInput`. -/
structure CreateInput where
  subject_identifier : String
  predicate : String
  object_value : Json
  source_id : Option String
  statement_timestamp : Option String

/-- The value returned to the immediate caller of `createStatement`
(`object_value` keeps its original, un-serialized shape). -/
structure CreatedStatement where
  id : String
  subject_identifier : String
  predicate : String
  object_value : Json
  source_id : Option String
  statement_timestamp : String
  created_at : String

/-- JavaScript `input.statement_timestamp || now`. -/
def timestampOr (v : Option String) (now : String) : String :=
  match v with
  | none => now
  | some t => if t = "" then now else t

/-- `Mutation.createStatement`: merges the subject identifier keyed by
`input.subject_identifier` and the object identifier keyed by
`JSON.stringify(input.object_value)`, creates the edge storing the
serialized object value, and returns the echoed (un-serialized) input.
`id` (`crypto.randomUUID()`) and `now` (`new Date().toISOString()`) are
explicit inputs. -/
def createStatement (g : GraphStore) (input : CreateInput) (id now : String) :
    GraphStore × CreatedStatement :=
  let timestamp := timestampOr input.statement_timestamp now
  let objStr := jsonStringify input.object_value
  let g1 := mergeIdentifier (mergeIdentifier g input.subject_identifier) objStr
  let st : Stmt :=
    { id := id
      subject := input.subject_identifier
      predicate := input.predicate
      object_value := objStr
      source_id := orNull input.source_id
      timestamp := timestamp
      created_at := now }
  (addStatement g1 st,
   { id := id
     subject_identifier := input.subject_identifier
     predicate := input.predicate
     object_value := input.object_value
     source_id := orNull input.source_id
     statement_timestamp := timestamp
     created_at := now })

/-! ## Read resolvers -/

/-- `Query.statement`: `MATCH (i)-[s:STATEMENT {id: $id}]->(t)`, first
record formatted, else `null`. -/
def statement (g : GraphStore) (id : String) : Option FormattedStatement :=
  ((g.statements.filter (fun s => s.id == id)).head?).map formatStatement

/-- Contiguous-substring test (Cypher `CONTAINS`). -/
def strContains (hay needle : String) : Bool :=
  (List.range (hay.data.length + 1)).any (fun i => needle.data.isPrefixOf (hay.data.drop i))

/-- The `WHERE` clause of `searchStatements`:
`toLower(s.object_value) CONTAINS toLower($query) OR toLower(i.value) CONTAINS toLower($query)`. -/
def matchesQuery (q : String) (s : Stmt) : Bool :=
  strContains (jsToLower s.object_value) (jsToLower q)
    || strContains (jsToLower s.subject) (jsToLower q)

/-- `Query.searchStatements`: filter by `matchesQuery`, `LIMIT 100`, format. -/
def searchStatements (g : GraphStore) (q : String) : List FormattedStatement :=
  ((g.statements.filter (matchesQuery q)).take 100).map formatStatement

/-! ## Pagination -/

/-- Insert keeping a list sorted by `created_at` descending
(`ORDER BY s.created_at DESC`; the backend's tie order is modelled as
placing later-created edges after earlier ones of equal key). -/
def insertDesc (s : Stmt) : List Stmt → List Stmt
  | [] => [s]
  | t :: ts => if s.created_at ≤ t.created_at then t :: insertDesc s ts else s :: t :: ts

/-- The backend's `ORDER BY s.created_at DESC` result order. -/
def sortByCreatedAtDesc : List Stmt → List Stmt
  | [] => []
  | s :: ss => insertDesc s (sortByCreatedAtDesc ss)

structure PaginatedResult where
  statements : List FormattedStatement
  totalCount : Nat
  hasMore : Bool
deriving DecidableEq

/-- The shared count-then-page shape of `statementsBySubject`,
`statementsByPredicate` and `paginatedStatements`: an independent
`count(s)` query, then the matching edges ordered by `created_at DESC`
with `SKIP $offset LIMIT $limit`, and
`hasMore = offset + statements.length < totalCount`. -/
def pagedQuery (matching : List Stmt) (limit offset : Nat) : PaginatedResult :=
  let totalCount := matching.length
  let stmts := (((sortByCreatedAtDesc matching).drop offset).take limit).map formatStatement
  { statements := stmts
    totalCount := totalCount
    hasMore := decide (offset + stmts.length < totalCount) }

/-- `Query.statementsBySubject` (valid bounds). -/
def statementsBySubject (g : GraphStore) (identifier : String) (limit offset : Nat) :
    PaginatedResult :=
  pagedQuery (g.statements.filter (fun s => s.subject == identifier)) limit offset

/-- `Query.statementsByPredicate` (valid bounds). -/
def statementsByPredicate (g : GraphStore) (predicate : String) (limit offset : Nat) :
    PaginatedResult :=
  pagedQuery (g.statements.filter (fun s => s.predicate == predicate)) limit offset

/-- `Query.paginatedStatements` (valid bounds). -/
def paginatedStatements (g : GraphStore) (limit offset : Nat) : PaginatedResult :=
  pagedQuery g.statements limit offset

/-! ## deleteStatement -/

structure DeleteResult where
  success : Bool
  message : String
  id : String
deriving DecidableEq

/-- `Mutation.deleteStatement`: `MATCH ()-[s:STATEMENT {id: $id}]->()
DELETE s RETURN count(s) as deleted`; `success = deleted > 0`. -/
def deleteStatement (g : GraphStore) (id : String) : GraphStore × DeleteResult :=
  let deleted := decide (0 < (g.statements.filter (fun s => s.id == id)).length)
  ({ g with statements := g.statements.filter (fun s => !(s.id == id)) },
   { success := deleted
     message := if deleted then "Statement deleted" else "Statement not found"
     id := id })

/-! ## ingest -/

structure IngestResult where
  success : Bool
  message : String
  entities_created : Nat
  statements_created : Nat
deriving DecidableEq

/-- One raw CSV line parsed as in the loop body:
`const [subject, predicate, object_value] = line.split(",").map(s => s.trim())`
followed by `if (!subject || !predicate || !object_value) continue` —
only the first three trimmed fields are bound; a missing field is
`undefined` and an empty field is `""`, both falsy. -/
def parseLine (line : String) : Option (String × String × String) :=
  match (jsSplit ',' line).map jsTrim with
  | s :: p :: o :: _ =>
      if s = "" ∨ p = "" ∨ o = "" then none else some (s, p, o)
  | _ => none

/-- `data.split("\n").filter(l => l.trim())`: non-blank lines, untrimmed. -/
def nonBlankLines (data : String) : List String :=
  (jsSplit '\n' data).filter (fun l => !(jsTrim l == ""))

/-- The accepted (subject, predicate, object) triples of an ingest payload. -/
def validTriples (data : String) : List (String × String × String) :=
  (nonBlankLines data).filterMap parseLine

/-- The statement edge created for one accepted ingest line: `source_id`
is the raw `sourceName`, and `timestamp = created_at = now` (the single
batch timestamp). -/
def mkIngestStmt (id s p o src now : String) : Stmt :=
  { id := id
    subject := s
    predicate := p
    object_value := o
    source_id := some src
    timestamp := now
    created_at := now }

/-- `new Set<string>().add(subject)`: insertion-ordered distinct values. -/
def insertNew (xs : List String) (s : String) : List String :=
  if s ∈ xs then xs else xs ++ [s]

/-- The ingest loop.  `created` is the running `statementsCreated` counter
(the k-th accepted line overall uses the k-th generated id `ids created`);
`ents` is the `entities` set. -/
def processLines (ids : Nat → String) (src now : String) :
    GraphStore → Nat → List String → List String → GraphStore × Nat × List String
  | g, created, ents, [] => (g, created, ents)
  | g, created, ents, line :: rest =>
    match parseLine line with
    | none => processLines ids src now g created ents rest
    | some (s, p, o) =>
        processLines ids src now
          (addStatement (mergeIdentifier (mergeIdentifier g s) o)
            (mkIngestStmt (ids created) s p o src now))
          (created + 1) (insertNew ents s) rest

/-- `Mutation.ingest`: splits `data` into non-blank lines, processes each
line (skipping malformed ones), and reports the counters.  The id supply
`ids` and the single batch timestamp `now` are explicit inputs. -/
def ingest (g : GraphStore) (data sourceName : String) (ids : Nat → String) (now : String) :
    GraphStore × IngestResult :=
  let r := processLines ids sourceName now g 0 [] (nonBlankLines data)
  (r.1,
   { success := true
     message := "Ingested " ++ toString r.2.1 ++ " statements"
     entities_created := r.2.2.length
     statements_created := r.2.1 })

/-! ## Operation sequences (for the identifier-merge invariant) -/

/-- A write operation against the store, with its externally supplied
identifiers and timestamps. -/
inductive Op where
  | create (input : CreateInput) (id now : String) : Op
  | ingestOp (data sourceName : String) (ids : Nat → String) (now : String) : Op
  | delete (id : String) : Op

def applyOp (g : GraphStore) : Op → GraphStore
  | Op.create input id now => (createStatement g input id now).1
  | Op.ingestOp data src ids now => (ingest g data src ids now).1
  | Op.delete id => (deleteStatement g id).1

def applyOps (g : GraphStore) (ops : List Op) : GraphStore :=
  ops.foldl applyOp g

/-- The identifier values an operation references (the keys it merges):
for `createStatement` the subject and the JSON-serialized object value,
for `ingest` the subject and raw object of every accepted line. -/
def opReferences (op : Op) (v : String) : Prop :=
  match op with
  | Op.create input _ _ =>
      v = input.subject_identifier ∨ v = jsonStringify input.object_value
  | Op.ingestOp data _ _ _ =>
      ∃ t ∈ validTriples data, v = t.1 ∨ v = t.2.2
  | Op.delete _ => False

/-! ## Int-typed resolver fronts with backend-call counting (error model)

The GraphQL `Int` arguments reach the Cypher `SKIP`/`LIMIT` parameters
unvalidated.  These variants model, for each operation, how many backend
calls are issued before the operation returns or fails: the count query
is always issued first; a negative `SKIP` or `LIMIT` is then rejected by
the backend itself (`session.run` throws), not by the resolver. -/

def pagedQueryChecked (matching : List Stmt) (limit offset : Int) :
    Nat × Except String PaginatedResult :=
  if offset < 0 ∨ limit < 0 then
    (2, Except.error "Neo4j query failed: SKIP and LIMIT must be non-negative")
  else
    (2, Except.ok (pagedQuery matching limit.toNat offset.toNat))

def statementsBySubjectR (g : GraphStore) (identifier : String) (limit offset : Int) :
    Nat × Except String PaginatedResult :=
  pagedQueryChecked (g.statements.filter (fun s => s.subject == identifier)) limit offset

def statementsByPredicateR (g : GraphStore) (predicate : String) (limit offset : Int) :
    Nat × Except String PaginatedResult :=
  pagedQueryChecked (g.statements.filter (fun s => s.predicate == predicate)) limit offset

def paginatedStatementsR (g : GraphStore) (limit offset : Int) :
    Nat × Except String PaginatedResult :=
  pagedQueryChecked g.statements limit offset

/-- The REST route record shape of `index.ts` (no `|| null` on
`source_id`). -/
def apiFormat (s : Stmt) : FormattedStatement :=
  { id := s.id
    subject_identifier := s.subject
    predicate := s.predicate
    object_value := s.object_value
    source_id := s.source_id
    statement_timestamp := s.timestamp
    created_at := s.created_at }

/-- `GET /api/search` from `index.ts`: `if (!query.q) throw …` rejects a
missing or empty `q` before any backend call; otherwise one backend call
runs the same `CONTAINS` query capped at 100. -/
def apiSearch (g : GraphStore) (q : Option String) :
    Nat × Except String (List FormattedStatement × Nat) :=
  match q with
  | none => (0, Except.error "Query parameter q is required")
  | some qs =>
      if qs = "" then (0, Except.error "Query parameter q is required")
      else
        let stmts := ((g.statements.filter (matchesQuery qs)).take 100).map apiFormat
        (1, Except.ok (stmts, stmts.length))

/-! ## Spec-side descriptions (for refinement statements) -/

/-- Modelled from the spec: the statements an ingest batch is described to
create — one per accepted line, in order, the k-th carrying the k-th
generated id, the supplied source name and the shared batch timestamp. -/
def ingestSpecStatements (ids : Nat → String) (src now : String) :
    Nat → List (String × String × String) → List Stmt
  | _, [] => []
  | c, (s, p, o) :: rest =>
      mkIngestStmt (ids c) s p o src now :: ingestSpecStatements ids src now (c + 1) rest

/-! ## Basic lemmas about the store operations -/

theorem mergeIdentifier_statements (g : GraphStore) (v : String) :
    (mergeIdentifier g v).statements = g.statements := by
  unfold mergeIdentifier; split <;> rfl

theorem addStatement_identifiers (g : GraphStore) (s : Stmt) :
    (addStatement g s).identifiers = g.identifiers := rfl

theorem mem_mergeIdentifier_self (g : GraphStore) (v : String) :
    v ∈ (mergeIdentifier g v).identifiers := by
  unfold mergeIdentifier; split
  · assumption
  · simp

theorem mem_mergeIdentifier_mono (g : GraphStore) (v w : String)
    (h : w ∈ g.identifiers) : w ∈ (mergeIdentifier g v).identifiers := by
  unfold mergeIdentifier; split
  · exact h
  · simp [h]

theorem nodup_mergeIdentifier (g : GraphStore) (v : String)
    (h : g.identifiers.Nodup) : (mergeIdentifier g v).identifiers.Nodup := by
  unfold mergeIdentifier; split
  · exact h
  · next hv =>
    refine List.Nodup.append h (List.nodup_singleton v) ?_
    intro a ha hav
    rw [List.mem_singleton] at hav
    exact hv (hav ▸ ha)

theorem orNull_idem (v : Option String) : orNull (orNull v) = orNull v := by
  cases v with
  | none => rfl
  | some s => by_cases h : s = "" <;> simp [orNull, h]

theorem filter_length_pos_iff (l : List Stmt) (id : String) :
    0 < (l.filter (fun s => s.id == id)).length ↔ ∃ s ∈ l, s.id = id := by
  rw [List.length_pos_iff_exists_mem]
  constructor
  · rintro ⟨s, hs⟩
    rw [List.mem_filter] at hs
    exact ⟨s, hs.1, by simpa using hs.2⟩
  · rintro ⟨s, hs, he⟩
    exact ⟨s, List.mem_filter.mpr ⟨hs, by simpa using he⟩⟩

/-! ## Claim theorems -/

/-- **C7** `deleteStatement(id)` returns `{success, message, id}` with
`success = true` and `message = "Statement deleted"` iff an edge with that
id existed (and was removed), else `success = false` and
`message = "Statement not found"`; the id is echoed back in both cases,
and afterwards `statement(id)` is absent. -/
theorem deleteStatement_semantics (g : GraphStore) (id : String) :
    (((deleteStatement g id).2.success = true ∧
        (deleteStatement g id).2.message = "Statement deleted")
      ↔ ∃ s ∈ g.statements, s.id = id)
    ∧ (((deleteStatement g id).2.success = false ∧
        (deleteStatement g id).2.message = "Statement not found")
      ↔ ¬ ∃ s ∈ g.statements, s.id = id)
    ∧ (deleteStatement g id).2.id = id
    ∧ statement (deleteStatement g id).1 id = none := by
  have hempty : ((g.statements.filter (fun s => !(s.id == id))).filter
      (fun s => s.id == id)) = [] := by
    rw [List.filter_filter]
    simp
  by_cases hP : ∃ s ∈ g.statements, s.id = id
  · have hd : 0 < (g.statements.filter (fun s => s.id == id)).length :=
      (filter_length_pos_iff _ _).mpr hP
    refine ⟨?_, ?_, rfl, ?_⟩
    · simp [deleteStatement, hd, hP]
    · simp [deleteStatement, hd, hP]
    · simp [deleteStatement, statement, hempty]
  · have hd : ¬ 0 < (g.statements.filter (fun s => s.id == id)).length :=
      fun h => hP ((filter_length_pos_iff _ _).mp h)
    refine ⟨?_, ?_, rfl, ?_⟩
    · simp [deleteStatement, hd, hP]
    · simp [deleteStatement, hd, hP]
    · simp [deleteStatement, statement, hempty]

/-- **C9** (implicit) In the shared result formatter, a stored `source_id`
that is falsy — the empty string as well as an absent value — is returned
as `null`; moreover `createStatement` with `source_id = ""` persists and
returns exactly what it does with no `source_id`, so the two are
indistinguishable on read. -/
theorem formatStatement_source_id_falsy (s : Stmt) (g : GraphStore)
    (input : CreateInput) (id now : String) :
    (s.source_id = some "" ∨ s.source_id = none → (formatStatement s).source_id = none)
    ∧ createStatement g
        { input with source_id := some "" } id now
      = createStatement g
        { input with source_id := none } id now := by
  constructor
  · rintro (h | h) <;> simp [formatStatement, orNull, h]
  · simp [createStatement, orNull]

/-- **C9 witness**: a concrete statement stored with `source_id = ""` is
formatted with `source_id = null`. -/
theorem formatStatement_source_id_falsy_witness :
    (formatStatement
      { id := "i1", subject := "a", predicate := "p", object_value := "o",
        source_id := some "", timestamp := "t", created_at := "t" }).source_id = none :=
  (formatStatement_source_id_falsy
    { id := "i1", subject := "a", predicate := "p", object_value := "o",
      source_id := some "", timestamp := "t", created_at := "t" }
    emptyStore
    { subject_identifier := "a", predicate := "p", object_value := Json.null,
      source_id := none, statement_timestamp := none }
    "i1" "t").1 (Or.inl rfl)

/-- **C10** (implicit) An ingest line with more than three comma-separated
fields is parsed using only the first three (trimmed) fields; everything
after the third field is silently discarded, so such a line still creates
exactly one statement whose object value is the trimmed third field. -/
theorem ingest_extra_fields_discarded (g : GraphStore) (line src now : String)
    (ids : Nat → String) (s p o : String) (rest : List String)
    (h0 : jsSplit '\n' line = [line]) (h1 : jsTrim line ≠ "")
    (h : (jsSplit ',' line).map jsTrim = s :: p :: o :: rest)
    (_hrest : rest ≠ []) (hs : s ≠ "") (hp : p ≠ "") (ho : o ≠ "") :
    (ingest g line src ids now).1.statements
        = g.statements ++ [mkIngestStmt (ids 0) s p o src now]
    ∧ (ingest g line src ids now).2.statements_created = 1 := by
  have hparse : parseLine line = some (s, p, o) := by
    unfold parseLine
    rw [h]
    simp [hs, hp, ho]
  have hlines : nonBlankLines line = [line] := by
    unfold nonBlankLines
    rw [h0]
    simp [h1]
  constructor
  · simp [ingest, hlines, processLines, hparse, addStatement,
      mergeIdentifier_statements]
  · simp [ingest, hlines, processLines, hparse]

/-- **C10 witness**: `"x,likes,b,c"` — an object value containing a comma —
creates exactly one statement with object value `"b"`, truncated at the
first comma. -/
theorem ingest_extra_fields_discarded_witness :
    (ingest emptyStore "x,likes,b,c" "src" (fun _ => "u1") "t").1.statements
        = emptyStore.statements ++ [mkIngestStmt "u1" "x" "likes" "b" "src" "t"]
    ∧ (ingest emptyStore "x,likes,b,c" "src" (fun _ => "u1") "t").2.statements_created = 1 :=
  ingest_extra_fields_discarded emptyStore "x,likes,b,c" "src" "t" (fun _ => "u1")
    "x" "likes" "b" ["c"] (by decide) (by decide) (by decide) (by decide)
    (by decide) (by decide) (by decide)

/-- **C1 counterexample**: `createStatement` with
`{subject_identifier: "alice", predicate: "knows", object_value: "bob"}`
stores `JSON.stringify("bob")`, so the subsequent `statement(id)` read
returns `object_value = "\"bob\""` — the serialized form — not `"bob"`
as the claim states (subject and predicate do round-trip unchanged). -/
theorem createStatement_statement_roundtrip_cex :
    ((statement
        (createStatement emptyStore
          { subject_identifier := "alice", predicate := "knows",
            object_value := Json.str "bob", source_id := none,
            statement_timestamp := none } "id0" "t0").1 "id0").map
      (fun f => (f.subject_identifier, f.predicate, f.object_value)))
      = some ("alice", "knows", "\"bob\"")
    ∧ ((statement
        (createStatement emptyStore
          { subject_identifier := "alice", predicate := "knows",
            object_value := Json.str "bob", source_id := none,
            statement_timestamp := none } "id0" "t0").1 "id0").map
      (fun f => f.object_value)) ≠ some "bob" := by
  constructor
  · rfl
  · decide

/-- **C1 (amended)** Round trip: after `createStatement(input)` with a
fresh id, `statement(id)` returns a record whose `subject_identifier` and
`predicate` equal the input's, and whose `object_value` is the
JSON-serialized form of the input's `object_value` (for the scenario's
input `"bob"` this is the string `"\"bob\""`, not `"bob"`). -/
theorem createStatement_statement_roundtrip (g : GraphStore) (input : CreateInput)
    (id now : String) (hfresh : ∀ s ∈ g.statements, s.id ≠ id) :
    statement (createStatement g input id now).1 id =
      some
        { id := id
          subject_identifier := input.subject_identifier
          predicate := input.predicate
          object_value := jsonStringify input.object_value
          source_id := orNull input.source_id
          statement_timestamp := timestampOr input.statement_timestamp now
          created_at := now } := by
  have hnil : g.statements.filter (fun s => s.id == id) = [] := by
    rw [List.filter_eq_nil_iff]
    intro s hs
    simpa using hfresh s hs
  simp [statement, createStatement, addStatement, mergeIdentifier_statements,
    List.filter_append, hnil, formatStatement, orNull_idem]

/-- **C1 witness**: the amended round trip at the scenario's concrete
input, from the empty store. -/
theorem createStatement_statement_roundtrip_witness :
    statement
      (createStatement emptyStore
        { subject_identifier := "alice", predicate := "knows",
          object_value := Json.str "bob", source_id := none,
          statement_timestamp := none } "id0" "t0").1 "id0" =
      some
        { id := "id0"
          subject_identifier := "alice"
          predicate := "knows"
          object_value := "\"bob\""
          source_id := none
          statement_timestamp := "t0"
          created_at := "t0" } :=
  createStatement_statement_roundtrip emptyStore
    { subject_identifier := "alice", predicate := "knows",
      object_value := Json.str "bob", source_id := none,
      statement_timestamp := none } "id0" "t0" (by simp [emptyStore])

/-- **C2** For every input, `createStatement` persists the edge with
`object_value = JSON.stringify(input.object_value)` and merges the object
identifier keyed by that serialized string, while the value returned to
the immediate caller echoes the original, un-serialized
`input.object_value`. -/
theorem createStatement_serializes_and_echoes (g : GraphStore) (input : CreateInput)
    (id now : String) :
    (createStatement g input id now).1.statements
        = g.statements ++
          [{ id := id
             subject := input.subject_identifier
             predicate := input.predicate
             object_value := jsonStringify input.object_value
             source_id := orNull input.source_id
             timestamp := timestampOr input.statement_timestamp now
             created_at := now }]
    ∧ jsonStringify input.object_value ∈ (createStatement g input id now).1.identifiers
    ∧ (createStatement g input id now).2.object_value = input.object_value := by
  refine ⟨?_, ?_, rfl⟩
  · simp [createStatement, addStatement, mergeIdentifier_statements]
  · exact mem_mergeIdentifier_self _ _

theorem strContains_empty_needle (hay : String) : strContains hay "" = true := by
  unfold strContains
  rw [List.any_eq_true]
  exact ⟨0, List.mem_range.mpr (Nat.succ_pos _), by simp [List.isPrefixOf]⟩

theorem matchesQuery_empty (s : Stmt) : matchesQuery "" s = true := by
  unfold matchesQuery
  rw [Bool.or_eq_true]
  exact Or.inl (strContains_empty_needle _)

/-- **C5 counterexample**: the query is not trimmed, so a whitespace-only
query does *not* match every statement — with one stored statement
(subject `"alice"`, object `"\"bob\""`, neither containing a space),
`searchStatements(" ")` returns nothing, while the claim requires every
statement to be returned (the cap of 100 is not in play). -/
theorem searchStatements_whitespace_cex :
    searchStatements
      (createStatement emptyStore
        { subject_identifier := "alice", predicate := "knows",
          object_value := Json.str "bob", source_id := none,
          statement_timestamp := none } "id0" "t0").1 " " = []
    ∧ (createStatement emptyStore
        { subject_identifier := "alice", predicate := "knows",
          object_value := Json.str "bob", source_id := none,
          statement_timestamp := none } "id0" "t0").1.statements.length = 1 := by
  constructor
  · decide
  · rfl

/-- **C5 (amended)** `searchStatements(query)` returns exactly the stored
statements (formatted) whose lowercased `object_value` or lowercased
subject value contains the lowercased `query` as a substring, capped at
100 records; an *empty* query is not an error and matches every statement
up to the cap, but a whitespace query is matched literally like any other
string. -/
theorem searchStatements_containment (g : GraphStore) (q : String) :
    (∀ f ∈ searchStatements g q,
        ∃ s ∈ g.statements, matchesQuery q s = true ∧ formatStatement s = f)
    ∧ ((g.statements.filter (matchesQuery q)).length ≤ 100 →
        ∀ s ∈ g.statements, matchesQuery q s = true →
          formatStatement s ∈ searchStatements g q)
    ∧ searchStatements g "" = (g.statements.take 100).map formatStatement
    ∧ (searchStatements g q).length ≤ 100 := by
  refine ⟨?_, ?_, ?_, ?_⟩
  · intro f hf
    rw [searchStatements, List.mem_map] at hf
    obtain ⟨s, hs, hfs⟩ := hf
    have hs' := List.mem_of_mem_take hs
    rw [List.mem_filter] at hs'
    exact ⟨s, hs'.1, hs'.2, hfs⟩
  · intro h100 s hs hq
    rw [searchStatements, List.take_of_length_le h100, List.mem_map]
    exact ⟨s, List.mem_filter.mpr ⟨hs, hq⟩, rfl⟩
  · unfold searchStatements
    congr 1
    congr 1
    rw [List.filter_eq_self]
    intro s _
    exact matchesQuery_empty s
  · rw [searchStatements, List.length_map]
    exact List.length_take_le _ _

/-- **C5 witness**: with one stored statement and query `"BO"` (matching
`"\"bob\""` case-insensitively), the statement is returned; and an
instantiation of the returned-implies-matching direction. -/
theorem searchStatements_containment_witness :
    formatStatement
      { id := "id0", subject := "alice", predicate := "knows",
        object_value := "\"bob\"", source_id := none,
        timestamp := "t0", created_at := "t0" } ∈
      searchStatements
        (createStatement emptyStore
          { subject_identifier := "alice", predicate := "knows",
            object_value := Json.str "bob", source_id := none,
            statement_timestamp := none } "id0" "t0").1 "BO" :=
  (searchStatements_containment
      (createStatement emptyStore
        { subject_identifier := "alice", predicate := "knows",
          object_value := Json.str "bob", source_id := none,
          statement_timestamp := none } "id0" "t0").1 "BO").2.1
    (by decide)
    { id := "id0", subject := "alice", predicate := "knows",
      object_value := "\"bob\"", source_id := none,
      timestamp := "t0", created_at := "t0" }
    (by decide) (by decide)

/-- **C8 counterexample**: `statementsBySubject` with `offset = -1` does
*not* surface a request-level error before any backend call — the count
query is issued unconditionally (two backend calls are attempted), and
the failure is the backend's rejection of the negative `SKIP`, not a
pre-backend `InvalidArgument`. -/
theorem pagination_no_validation_cex :
    (statementsBySubjectR emptyStore "x" 10 (-1)).1 = 2
    ∧ (statementsBySubjectR emptyStore "x" 10 (-1)).1 ≠ 0
    ∧ (statementsBySubjectR emptyStore "x" 10 (-1)).2
        = Except.error "Neo4j query failed: SKIP and LIMIT must be non-negative" := by
  refine ⟨rfl, by decide, rfl⟩

/-- **C8 (amended)** The pagination resolvers perform no bound validation:
for `offset < 0` or `limit < 0` each of `statementsBySubject`,
`statementsByPredicate` and `paginatedStatements` still issues its count
query (two backend calls are attempted) and the failure surfaces as a
backend error from the page query; only the REST search route rejects a
missing (or empty, both falsy) search term before any backend call. -/
theorem pagination_backend_error_and_search_guard (g : GraphStore)
    (ident pred : String) (limit offset : Int) (h : offset < 0 ∨ limit < 0) :
    (statementsBySubjectR g ident limit offset).1 = 2
    ∧ (∃ e, (statementsBySubjectR g ident limit offset).2 = Except.error e)
    ∧ (statementsByPredicateR g pred limit offset).1 = 2
    ∧ (∃ e, (statementsByPredicateR g pred limit offset).2 = Except.error e)
    ∧ (paginatedStatementsR g limit offset).1 = 2
    ∧ (∃ e, (paginatedStatementsR g limit offset).2 = Except.error e)
    ∧ (apiSearch g none).1 = 0
    ∧ (∃ e, (apiSearch g none).2 = Except.error e)
    ∧ (apiSearch g (some "")).1 = 0
    ∧ (∃ e, (apiSearch g (some "")).2 = Except.error e) := by
  refine ⟨?_, ?_, ?_, ?_, ?_, ?_, rfl, ⟨_, rfl⟩, rfl, ⟨_, rfl⟩⟩ <;>
    simp [statementsBySubjectR, statementsByPredicateR, paginatedStatementsR,
      pagedQueryChecked, h]

/-- **C8 witness**: the amended behavior at `limit = 10`, `offset = -1`
on the empty store. -/
theorem pagination_backend_error_and_search_guard_witness :
    (statementsBySubjectR emptyStore "s" 10 (-1)).1 = 2
    ∧ (∃ e, (statementsBySubjectR emptyStore "s" 10 (-1)).2 = Except.error e)
    ∧ (statementsByPredicateR emptyStore "p" 10 (-1)).1 = 2
    ∧ (∃ e, (statementsByPredicateR emptyStore "p" 10 (-1)).2 = Except.error e)
    ∧ (paginatedStatementsR emptyStore 10 (-1)).1 = 2
    ∧ (∃ e, (paginatedStatementsR emptyStore 10 (-1)).2 = Except.error e)
    ∧ (apiSearch emptyStore none).1 = 0
    ∧ (∃ e, (apiSearch emptyStore none).2 = Except.error e)
    ∧ (apiSearch emptyStore (some "")).1 = 0
    ∧ (∃ e, (apiSearch emptyStore (some "")).2 = Except.error e) :=
  pagination_backend_error_and_search_guard emptyStore "s" "p" 10 (-1)
    (Or.inl (by decide))

/-! ## The ingest loop, characterized -/

theorem insertNew_nodup (e : List String) (s : String) (h : e.Nodup) :
    (insertNew e s).Nodup := by
  unfold insertNew; split
  · exact h
  · next hs =>
    refine List.Nodup.append h (List.nodup_singleton s) ?_
    intro a ha hav
    rw [List.mem_singleton] at hav
    exact hs (hav ▸ ha)

theorem insertNew_toFinset (e : List String) (s : String) :
    (insertNew e s).toFinset = insert s e.toFinset := by
  unfold insertNew; split
  · next hs => exact (Finset.insert_eq_self.mpr (List.mem_toFinset.mpr hs)).symm
  · rw [List.toFinset_append, List.toFinset_cons, List.toFinset_nil,
      Finset.union_comm, Finset.insert_union, Finset.empty_union]

theorem processLines_spec (ids : Nat → String) (src now : String) :
    ∀ (L : List String) (g : GraphStore) (c : Nat) (e : List String),
      (processLines ids src now g c e L).1.statements
          = g.statements ++ ingestSpecStatements ids src now c (L.filterMap parseLine)
      ∧ (processLines ids src now g c e L).2.1 = c + (L.filterMap parseLine).length
      ∧ (e.Nodup →
          (processLines ids src now g c e L).2.2.Nodup
          ∧ (processLines ids src now g c e L).2.2.toFinset
              = e.toFinset ∪ ((L.filterMap parseLine).map (fun t => t.1)).toFinset) := by
  intro L
  induction L with
  | nil =>
    intro g c e
    refine ⟨by simp [processLines, ingestSpecStatements], by simp [processLines], ?_⟩
    intro he
    exact ⟨he, by simp [processLines]⟩
  | cons line rest ih =>
    intro g c e
    cases hp : parseLine line with
    | none =>
      have hfm : (line :: rest).filterMap parseLine = rest.filterMap parseLine :=
        List.filterMap_cons_none hp
      have hstep : processLines ids src now g c e (line :: rest)
          = processLines ids src now g c e rest := by
        simp [processLines, hp]
      rw [hstep, hfm]
      exact ih g c e
    | some t =>
      obtain ⟨s, p, o⟩ := t
      have hfm : (line :: rest).filterMap parseLine
          = (s, p, o) :: rest.filterMap parseLine :=
        List.filterMap_cons_some hp
      have hstep : processLines ids src now g c e (line :: rest)
          = processLines ids src now
              (addStatement (mergeIdentifier (mergeIdentifier g s) o)
                (mkIngestStmt (ids c) s p o src now))
              (c + 1) (insertNew e s) rest := by
        simp [processLines, hp]
      obtain ⟨ih1, ih2, ih3⟩ :=
        ih (addStatement (mergeIdentifier (mergeIdentifier g s) o)
              (mkIngestStmt (ids c) s p o src now))
           (c + 1) (insertNew e s)
      rw [hstep, hfm]
      refine ⟨?_, ?_, ?_⟩
      · rw [ih1, ingestSpecStatements]
        simp [addStatement, mergeIdentifier_statements]
      · rw [ih2, List.length_cons]
        omega
      · intro he
        obtain ⟨hn, hf⟩ := ih3 (insertNew_nodup e s he)
        refine ⟨hn, ?_⟩
        rw [hf, insertNew_toFinset, List.map_cons, List.toFinset_cons,
          Finset.insert_union, Finset.union_insert]

/-- **C4** `ingest(data, sourceName)`: every non-blank line whose first
three trimmed comma-separated fields are non-empty creates exactly one
statement — the k-th accepted line carrying the k-th freshly generated
id, the line's predicate, the raw trimmed third field as `object_value`
(not JSON-serialized), `source_id = sourceName`, and
`timestamp = created_at =` the single batch timestamp computed before the
loop; other lines are silently skipped; the result is
`{success: true, message: "Ingested N statements",
entities_created = number of distinct accepted subjects,
statements_created = N = number of accepted lines}`. -/
theorem ingest_characterization (g : GraphStore) (data src now : String)
    (ids : Nat → String) :
    (ingest g data src ids now).1.statements
        = g.statements ++ ingestSpecStatements ids src now 0 (validTriples data)
    ∧ (ingest g data src ids now).2.success = true
    ∧ (ingest g data src ids now).2.message
        = "Ingested " ++ toString (validTriples data).length ++ " statements"
    ∧ (ingest g data src ids now).2.statements_created = (validTriples data).length
    ∧ (ingest g data src ids now).2.entities_created
        = ((validTriples data).map (fun t => t.1)).dedup.length := by
  obtain ⟨h1, h2, h3⟩ :=
    processLines_spec ids src now (nonBlankLines data) g 0 []
  obtain ⟨hn, hf⟩ := h3 List.nodup_nil
  have hents : (processLines ids src now g 0 [] (nonBlankLines data)).2.2.length
      = ((validTriples data).map (fun t => t.1)).dedup.length := by
    have hd : (processLines ids src now g 0 [] (nonBlankLines data)).2.2.dedup
        = (processLines ids src now g 0 [] (nonBlankLines data)).2.2 :=
      List.Nodup.dedup hn
    calc (processLines ids src now g 0 [] (nonBlankLines data)).2.2.length
        = (processLines ids src now g 0 [] (nonBlankLines data)).2.2.dedup.length := by
          rw [hd]
      _ = (processLines ids src now g 0 [] (nonBlankLines data)).2.2.toFinset.card :=
          (List.card_toFinset _).symm
      _ = ((validTriples data).map (fun t => t.1)).toFinset.card := by
          rw [hf, List.toFinset_nil, Finset.empty_union, validTriples]
      _ = ((validTriples data).map (fun t => t.1)).dedup.length :=
          List.card_toFinset _
  refine ⟨?_, rfl, ?_, ?_, ?_⟩
  · rw [ingest]
    exact h1
  · rw [ingest]
    simp only []
    rw [h2, validTriples]
    simp
  · rw [ingest]
    simp only []
    rw [h2, validTriples]
    simp
  · rw [ingest]
    exact hents

/-! ## Identifier-set facts for whole operation sequences -/

theorem processLines_identifiers (ids : Nat → String) (src now : String) :
    ∀ (L : List String) (g : GraphStore) (c : Nat) (e : List String),
      (g.identifiers.Nodup → (processLines ids src now g c e L).1.identifiers.Nodup)
      ∧ (∀ w ∈ g.identifiers, w ∈ (processLines ids src now g c e L).1.identifiers)
      ∧ (∀ t ∈ L.filterMap parseLine,
          t.1 ∈ (processLines ids src now g c e L).1.identifiers
          ∧ t.2.2 ∈ (processLines ids src now g c e L).1.identifiers) := by
  intro L
  induction L with
  | nil =>
    intro g c e
    exact ⟨fun h => h, fun w hw => hw, by simp⟩
  | cons line rest ih =>
    intro g c e
    cases hp : parseLine line with
    | none =>
      have hstep : processLines ids src now g c e (line :: rest)
          = processLines ids src now g c e rest := by
        simp [processLines, hp]
      have hfm : (line :: rest).filterMap parseLine = rest.filterMap parseLine :=
        List.filterMap_cons_none hp
      rw [hstep, hfm]
      exact ih g c e
    | some t =>
      obtain ⟨s, p, o⟩ := t
      have hstep : processLines ids src now g c e (line :: rest)
          = processLines ids src now
              (addStatement (mergeIdentifier (mergeIdentifier g s) o)
                (mkIngestStmt (ids c) s p o src now))
              (c + 1) (insertNew e s) rest := by
        simp [processLines, hp]
      have hfm : (line :: rest).filterMap parseLine
          = (s, p, o) :: rest.filterMap parseLine :=
        List.filterMap_cons_some hp
      obtain ⟨ih1, ih2, ih3⟩ :=
        ih (addStatement (mergeIdentifier (mergeIdentifier g s) o)
              (mkIngestStmt (ids c) s p o src now))
           (c + 1) (insertNew e s)
      rw [hstep, hfm]
      refine ⟨?_, ?_, ?_⟩
      · intro h
        exact ih1 (nodup_mergeIdentifier _ _ (nodup_mergeIdentifier _ _ h))
      · intro w hw
        exact ih2 w (mem_mergeIdentifier_mono _ _ _ (mem_mergeIdentifier_mono _ _ _ hw))
      · intro t ht
        rcases List.mem_cons.mp ht with h | h
        · subst h
          constructor
          · exact ih2 _ (mem_mergeIdentifier_mono _ _ _ (mem_mergeIdentifier_self _ _))
          · exact ih2 _ (mem_mergeIdentifier_self _ _)
        · exact ih3 t h

theorem applyOp_identifiers_nodup (g : GraphStore) (op : Op)
    (h : g.identifiers.Nodup) : (applyOp g op).identifiers.Nodup := by
  cases op with
  | create input id now =>
    exact nodup_mergeIdentifier _ _ (nodup_mergeIdentifier _ _ h)
  | ingestOp data src ids now =>
    exact (processLines_identifiers ids src now (nonBlankLines data) g 0 []).1 h
  | delete id => exact h

theorem applyOp_identifiers_mono (g : GraphStore) (op : Op) (w : String)
    (h : w ∈ g.identifiers) : w ∈ (applyOp g op).identifiers := by
  cases op with
  | create input id now =>
    exact mem_mergeIdentifier_mono _ _ _ (mem_mergeIdentifier_mono _ _ _ h)
  | ingestOp data src ids now =>
    exact (processLines_identifiers ids src now (nonBlankLines data) g 0 []).2.1 w h
  | delete id => exact h

theorem applyOp_references (g : GraphStore) (op : Op) (v : String)
    (h : opReferences op v) : v ∈ (applyOp g op).identifiers := by
  cases op with
  | create input id now =>
    rcases h with h | h
    · subst h
      exact mem_mergeIdentifier_mono _ _ _ (mem_mergeIdentifier_self _ _)
    · subst h
      exact mem_mergeIdentifier_self _ _
  | ingestOp data src ids now =>
    obtain ⟨t, ht, hv⟩ := h
    have := (processLines_identifiers ids src now (nonBlankLines data) g 0 []).2.2 t ht
    rcases hv with h | h
    · exact h ▸ this.1
    · exact h ▸ this.2
  | delete id => exact absurd h not_false

theorem applyOps_identifiers_nodup (ops : List Op) :
    ∀ g : GraphStore, g.identifiers.Nodup → (applyOps g ops).identifiers.Nodup := by
  induction ops with
  | nil => exact fun g h => h
  | cons op rest ih =>
    intro g h
    exact ih (applyOp g op) (applyOp_identifiers_nodup g op h)

theorem applyOps_identifiers_mono (ops : List Op) :
    ∀ (g : GraphStore) (w : String), w ∈ g.identifiers →
      w ∈ (applyOps g ops).identifiers := by
  induction ops with
  | nil => exact fun g w h => h
  | cons op rest ih =>
    intro g w h
    exact ih (applyOp g op) w (applyOp_identifiers_mono g op w h)

/-- **C3** Idempotent identifier merge: starting from the empty store,
after any sequence of operations at most one `Identifier` node carries any
given value — no operation ever creates a second node for the same value —
and any value referenced (as a merge key: a create's subject or serialized
object, an ingest line's subject or raw object) by some operation of the
sequence is carried by exactly one node. -/
theorem identifier_merge_idempotent (ops : List Op) (v : String) :
    (applyOps emptyStore ops).identifiers.count v ≤ 1
    ∧ ((∃ op ∈ ops, opReferences op v) →
        (applyOps emptyStore ops).identifiers.count v = 1) := by
  have hnodup : (applyOps emptyStore ops).identifiers.Nodup :=
    applyOps_identifiers_nodup ops emptyStore (by simp [emptyStore])
  refine ⟨List.nodup_iff_count_le_one.mp hnodup v, ?_⟩
  rintro ⟨op, hmem, href⟩
  obtain ⟨l1, l2, rfl⟩ := List.append_of_mem hmem
  have hsplit : applyOps emptyStore (l1 ++ op :: l2)
      = applyOps (applyOp (applyOps emptyStore l1) op) l2 := by
    simp [applyOps, List.foldl_append]
  have hv : v ∈ (applyOps emptyStore (l1 ++ op :: l2)).identifiers := by
    rw [hsplit]
    exact applyOps_identifiers_mono l2 _ v
      (applyOp_references (applyOps emptyStore l1) op v href)
  exact List.count_eq_one_of_mem hnodup hv

/-- **C3 witness**: two creations with the same subject `"alice"` leave
exactly one `Identifier` node with value `"alice"`. -/
theorem identifier_merge_idempotent_witness :
    (applyOps emptyStore
      [Op.create
        { subject_identifier := "alice", predicate := "knows",
          object_value := Json.str "bob", source_id := none,
          statement_timestamp := none } "id0" "t0",
       Op.create
        { subject_identifier := "alice", predicate := "likes",
          object_value := Json.str "cat", source_id := none,
          statement_timestamp := none } "id1" "t1"]).identifiers.count "alice" = 1 :=
  (identifier_merge_idempotent
    [Op.create
      { subject_identifier := "alice", predicate := "knows",
        object_value := Json.str "bob", source_id := none,
        statement_timestamp := none } "id0" "t0",
     Op.create
      { subject_identifier := "alice", predicate := "likes",
        object_value := Json.str "cat", source_id := none,
        statement_timestamp := none } "id1" "t1"] "alice").2
    ⟨Op.create
      { subject_identifier := "alice", predicate := "knows",
        object_value := Json.str "bob", source_id := none,
        statement_timestamp := none } "id0" "t0",
     List.mem_cons_self _ _, Or.inl rfl⟩

/-! ## Pagination partition -/

theorem length_insertDesc (s : Stmt) (l : List Stmt) :
    (insertDesc s l).length = l.length + 1 := by
  induction l with
  | nil => rfl
  | cons t ts ih =>
    rw [insertDesc]
    split
    · rw [List.length_cons, ih, List.length_cons]
    · rfl

theorem length_sortByCreatedAtDesc (l : List Stmt) :
    (sortByCreatedAtDesc l).length = l.length := by
  induction l with
  | nil => rfl
  | cons s ss ih =>
    rw [sortByCreatedAtDesc, length_insertDesc, ih, List.length_cons]

/-- The number of pages needed to exhaust `total` records at page size
`limit` (at least one page is always fetched at offset `0`). -/
def numPages (total limit : Nat) : Nat :=
  max ((total + limit - 1) / limit) 1

theorem ceil_le_iff {b : Nat} (hb : 0 < b) {a m : Nat} :
    (a + b - 1) / b ≤ m ↔ a ≤ m * b := by
  rw [← Nat.lt_succ_iff, Nat.div_lt_iff_lt_mul hb, Nat.succ_mul]
  generalize m * b = X
  omega

theorem le_numPages_mul (limit : Nat) (hl : 0 < limit) (total : Nat) :
    total ≤ numPages total limit * limit := by
  have h := (ceil_le_iff hl).mp (le_refl ((total + limit - 1) / limit))
  calc total ≤ ((total + limit - 1) / limit) * limit := h
    _ ≤ numPages total limit * limit :=
        Nat.mul_le_mul_right limit (le_max_left _ _)

theorem join_pages {α : Type} (limit : Nat) :
    ∀ (p : Nat) (L : List α), L.length ≤ p * limit →
      ((List.range p).map (fun k => (L.drop (k * limit)).take limit)).flatten = L := by
  intro p
  induction p with
  | zero =>
    intro L hL
    rw [Nat.zero_mul] at hL
    have hnil : L = [] := List.eq_nil_of_length_eq_zero (Nat.le_zero.mp hL)
    simp [hnil]
  | succ p ih =>
    intro p2 hL
    rw [List.range_succ_eq_map, List.map_cons, List.map_map, List.flatten_cons]
    have hfun : ((fun k => (p2.drop (k * limit)).take limit) ∘ Nat.succ)
        = fun k => ((p2.drop limit).drop (k * limit)).take limit := by
      funext k
      simp only [Function.comp_apply, List.drop_drop, Nat.succ_mul]
      rw [Nat.add_comm]
    have hlen : (p2.drop limit).length ≤ p * limit := by
      rw [List.length_drop, Nat.sub_le_iff_le_add]
      rw [Nat.succ_mul] at hL
      exact hL
    rw [hfun, ih (p2.drop limit) hlen]
    simp

theorem pagedQuery_flatten (M : List Stmt) (limit : Nat) (hl : 0 < limit) :
    ((List.range (numPages M.length limit)).map
        (fun k => (pagedQuery M limit (k * limit)).statements)).flatten
      = (sortByCreatedAtDesc M).map formatStatement := by
  have hpage : ∀ k : Nat, (pagedQuery M limit (k * limit)).statements
      = (((sortByCreatedAtDesc M).map formatStatement).drop (k * limit)).take limit := by
    intro k
    show (((sortByCreatedAtDesc M).drop (k * limit)).take limit).map formatStatement = _
    rw [List.map_take, List.map_drop]
  have hbound : ((sortByCreatedAtDesc M).map formatStatement).length
      ≤ numPages M.length limit * limit := by
    rw [List.length_map, length_sortByCreatedAtDesc]
    exact le_numPages_mul limit hl _
  have hmap : (List.range (numPages M.length limit)).map
      (fun k => (pagedQuery M limit (k * limit)).statements)
      = (List.range (numPages M.length limit)).map
          (fun k =>
            (((sortByCreatedAtDesc M).map formatStatement).drop (k * limit)).take limit) :=
    List.map_congr_left (fun k _ => hpage k)
  rw [hmap]
  exact join_pages limit (numPages M.length limit) _ hbound

theorem pageEnd_lt_iff (K total limit : Nat) (hK : K < total) :
    (K + min limit (total - K) < total) ↔ (K + limit < total) := by omega

theorem hasMore_last_page_iff (total limit k : Nat) (hl : 0 < limit)
    (hk : k < numPages total limit) :
    (decide (k * limit + min limit (total - k * limit) < total) = false
      ↔ k = numPages total limit - 1) := by
  rw [decide_eq_false_iff_not]
  rcases Nat.eq_zero_or_pos total with htot | htot
  · subst htot
    have hz : (0 + limit - 1) / limit = 0 := Nat.div_eq_of_lt (by omega)
    have hnp : numPages 0 limit = 1 := by
      unfold numPages
      rw [hz]
      omega
    rw [hnp] at hk ⊢
    have hk0 : k = 0 := Nat.lt_one_iff.mp hk
    subst hk0
    simp
  · have hceil : numPages total limit = (total + limit - 1) / limit := by
      unfold numPages
      refine Nat.max_eq_left ?_
      by_contra h
      push_neg at h
      have h0 : (total + limit - 1) / limit ≤ 0 := by omega
      have := (ceil_le_iff hl).mp h0
      omega
    rw [hceil] at hk ⊢
    have hklt : k * limit < total := by
      by_contra h
      push_neg at h
      exact absurd ((ceil_le_iff hl).mpr h) (Nat.not_le.mpr hk)
    rw [pageEnd_lt_iff (k * limit) total limit hklt, Nat.not_lt,
      show k * limit + limit = (k + 1) * limit from (Nat.succ_mul k limit).symm,
      ← ceil_le_iff hl]
    revert hk
    generalize (total + limit - 1) / limit = C
    intro hk
    omega

/-- **C6** Pagination partition: on a fixed store, reading
`statementsBySubject(identifier, limit, k·limit)` for
`k = 0, 1, …, numPages − 1` concatenates exactly to the full matching set
ordered by `created_at` descending — no duplicates, no gaps — and
`hasMore` is `false` exactly on the final page. -/
theorem statementsBySubject_pagination_partition (g : GraphStore) (ident : String)
    (limit : Nat) (hl : 0 < limit) :
    (((List.range (numPages (statementsBySubject g ident limit 0).totalCount limit)).map
        (fun k => (statementsBySubject g ident limit (k * limit)).statements)).flatten
      = (sortByCreatedAtDesc (g.statements.filter (fun s => s.subject == ident))).map
          formatStatement)
    ∧ (∀ k, k < numPages (statementsBySubject g ident limit 0).totalCount limit →
        ((statementsBySubject g ident limit (k * limit)).hasMore = false
          ↔ k = numPages (statementsBySubject g ident limit 0).totalCount limit - 1)) := by
  have htotal : (statementsBySubject g ident limit 0).totalCount
      = (g.statements.filter (fun s => s.subject == ident)).length := rfl
  constructor
  · exact pagedQuery_flatten (g.statements.filter (fun s => s.subject == ident)) limit hl
  · intro k hk
    rw [htotal] at hk
    have hhm : (statementsBySubject g ident limit (k * limit)).hasMore
        = decide (k * limit +
            min limit
              ((g.statements.filter (fun s => s.subject == ident)).length - k * limit)
            < (g.statements.filter (fun s => s.subject == ident)).length) := by
      simp only [statementsBySubject, pagedQuery, List.length_map, List.length_take,
        List.length_drop, length_sortByCreatedAtDesc]
    rw [htotal, hhm]
    exact hasMore_last_page_iff _ limit k hl hk

/-- A two-statement store used to instantiate the pagination theorem. -/
def paginationExampleStore : GraphStore :=
  { identifiers := ["a", "b"]
    statements :=
      [{ id := "i1", subject := "a", predicate := "p", object_value := "b",
         source_id := none, timestamp := "t2", created_at := "t2" },
       { id := "i2", subject := "a", predicate := "p", object_value := "b",
         source_id := none, timestamp := "t1", created_at := "t1" }] }

/-- **C6 witness**: two statements for subject `"a"`, page size 1 — the
two pages partition the descending-ordered set and `hasMore` is `false`
exactly on the second (final) page. -/
theorem statementsBySubject_pagination_partition_witness :
    (((List.range
        (numPages (statementsBySubject paginationExampleStore "a" 1 0).totalCount 1)).map
        (fun k => (statementsBySubject paginationExampleStore "a" 1 (k * 1)).statements)).flatten
      = (sortByCreatedAtDesc
          (paginationExampleStore.statements.filter (fun s => s.subject == "a"))).map
          formatStatement)
    ∧ ((statementsBySubject paginationExampleStore "a" 1 (1 * 1)).hasMore = false
        ↔ 1 = numPages (statementsBySubject paginationExampleStore "a" 1 0).totalCount 1
            - 1) :=
  ⟨(statementsBySubject_pagination_partition paginationExampleStore "a" 1 (by decide)).1,
   (statementsBySubject_pagination_partition paginationExampleStore "a" 1 (by decide)).2
      1 (by decide)⟩

